import Mathlib

/-!
Shallow embedding of `respec-validator` (`src/cli.js`).

The program is a CLI orchestrator: it parses command-line options
(`parseCommandLine`), then runs up to three external validation stages
(`validate`): ReSpec document generation/lint, HTML markup validation and
link checking.  External subprocesses are opaque; we model their outcomes
with an oracle (`StageResults`) and record the observable behaviour of a
run as a trace of events plus the process exit code.

The ignore-list derivation (`processManifest` in `cli.js`) parses each
manifest line's first `split(/\s+/)` token with WHATWG `new URL(token,
"file://")` and takes `pathname.slice(1)`.  `urlPathname` below models the
fragment of the WHATWG URL parser relevant to those inputs (scheme
detection, special schemes, file base resolution, authorities, ports,
opaque paths).  Host validation is modelled by rejecting forbidden
host/domain code points; IPv6 bracket literals, domain-to-ASCII (IDNA) and
percent-decoding inside hosts are not modelled, and bracket hosts are
conservatively rejected.  Other unmodelled corners: percent-encoding and
dot-segment normalization in paths (both failure-free in the standard),
backslash-as-slash in special URLs (theorem hypotheses exclude backslash
tokens where this matters), Windows drive letters, non-ASCII whitespace in
the JavaScript `\s` class.  No theorem below depends on the parser
accepting any authority-carrying (`//`-prefixed) token: totality is
claimed only for path references, and every other theorem gates on parse
success by hypothesis.
-/

namespace RespecValidator

/-- Model of the JavaScript regexp class `\s` (ASCII part): the characters
that `item.split(/\s+/)` treats as separators. -/
def jsSpace (c : Char) : Bool :=
  c = ' ' || c = '\t' || c = '\n' || c = '\r' || c = '\x0b' || c = '\x0c'

/-- JavaScript truthiness of a possibly-absent string option: `undefined`
and the empty string are falsy, every other string is truthy. -/
def jsTruthy : Option String → Bool
  | none => false
  | some s => !s.isEmpty

/-! ## WHATWG URL fragment: `(new URL(input, "file://")).pathname` -/

/-- Characters allowed in a URL scheme after the first (which must be an
ASCII letter): ASCII alphanumerics, `+`, `-`, `.`. -/
def schemeChar (c : Char) : Bool :=
  c.isAlpha || c.isDigit || c = '+' || c = '-' || c = '.'

/-- Split `scheme:rest` when the input starts with a valid URL scheme
followed by a colon; the scheme is lowercased.  `none` when the input has
no scheme (it is then a relative reference). -/
def schemeSplit (input : List Char) : Option (List Char × List Char) :=
  match input with
  | [] => none
  | c :: _ =>
    if c.isAlpha then
      match input.span schemeChar with
      | (pre, ':' :: r) => some (pre.map Char.toLower, r)
      | _ => none
    else none

/-- Truncate at the first `?` or `#`: the pathname never includes the
query or fragment. -/
def stripAfterPath (s : List Char) : List Char :=
  s.takeWhile (fun c => !(c == '?') && !(c == '#'))

/-- The WHATWG special schemes other than `file`. -/
def isSpecialScheme (s : List Char) : Bool :=
  s == "http".data || s == "https".data || s == "ws".data ||
  s == "wss".data || s == "ftp".data

/-- Numeric value of a digit string (used only on all-digit port strings). -/
def digitsVal (p : List Char) : Nat :=
  p.foldl (fun a c => a * 10 + (c.toNat - 48)) 0

/-- Split an authority at the first colon into hostname and optional port
string. -/
def splitPort (host : List Char) : List Char × Option (List Char) :=
  match host.span (fun c => !(c == ':')) with
  | (hn, ':' :: p) => (hn, some p)
  | (hn, _) => (hn, none)

/-- A port string is acceptable when absent, empty, or an all-digit string
whose value fits in 16 bits. -/
def portOk : Option (List Char) → Bool
  | none => true
  | some p => p.isEmpty || (p.all Char.isDigit && digitsVal p ≤ 65535)

/-- The WHATWG forbidden host code points, which make opaque-host parsing
fail. -/
def forbiddenHostChar (c : Char) : Bool :=
  c = '\x00' || c = '\t' || c = '\n' || c = '\r' || c = ' ' || c = '#' ||
  c = '/' || c = ':' || c = '<' || c = '>' || c = '?' || c = '@' ||
  c = '[' || c = '\\' || c = ']' || c = '^' || c = '|'

/-- The WHATWG forbidden domain code points, which make domain parsing (the
host parsing used for `file` and the other special schemes) fail; bracket
(IPv6) hosts fall under the `[`/`]` rejection, which is conservative for
valid IPv6 literals. -/
def forbiddenDomainChar (c : Char) : Bool :=
  forbiddenHostChar c || c.toNat < 32 || c = '%' || c.toNat = 127

/-- Parse the part after `file://`: a domain host (which for `file` URLs
may be empty but must contain no forbidden domain code point — in
particular no colon, so ports are never allowed in file URLs) followed by
a path; an empty path serializes as `/`. -/
def fileAuthority (s : List Char) : Option (List Char) :=
  let s := stripAfterPath s
  let host := s.takeWhile (fun c => !(c == '/'))
  if host.any forbiddenDomainChar then none
  else
    let p := s.drop host.length
    some (if p.isEmpty then ['/'] else p)

/-- Parse the authority and path of a special (non-file) scheme: the
hostname must be non-empty, must contain no forbidden domain code point,
and any port must be valid; an empty path serializes as `/`. -/
def specialAuthority (s : List Char) : Option (List Char) :=
  let s := stripAfterPath s
  let host := s.takeWhile (fun c => !(c == '/'))
  let (hn, port) := splitPort host
  if hn.isEmpty then none
  else if hn.any forbiddenDomainChar then none
  else if portOk port then
    let p := s.drop host.length
    some (if p.isEmpty then ['/'] else p)
  else none

/-- Parse the authority and path of a non-special scheme written with
`//`: the host is opaque (forbidden host code points rejected), may be
empty, and an empty path stays empty. -/
def nonSpecialAuthority (s : List Char) : Option (List Char) :=
  let s := stripAfterPath s
  let host := s.takeWhile (fun c => !(c == '/'))
  let (hn, port) := splitPort host
  if hn.any forbiddenHostChar then none
  else if portOk port then some (s.drop host.length) else none

/-- Prepend a slash unless the path already starts with one. -/
def ensureSlash (p : List Char) : List Char :=
  match p with
  | '/' :: _ => p
  | _ => '/' :: p

/-- Model of `(new URL(input, "file://")).pathname`; `none` models the
constructor throwing `TypeError: Invalid URL`.  Scheme-less inputs are
relative references resolved against `file:///`. -/
def urlPathname (input : List Char) : Option (List Char) :=
  match schemeSplit input with
  | some (scheme, rest) =>
    if scheme == "file".data then
      match rest with
      | '/' :: '/' :: r => fileAuthority r
      | _ => some (ensureSlash (stripAfterPath rest))
    else if isSpecialScheme scheme then
      specialAuthority (rest.dropWhile (fun c => c == '/'))
    else
      match rest with
      | '/' :: '/' :: r => nonSpecialAuthority r
      | _ => some (stripAfterPath rest)
  | none =>
    match input with
    | '/' :: '/' :: r => fileAuthority r
    | '/' :: _ => some (stripAfterPath input)
    | _ => some ('/' :: stripAfterPath input)

/-- A token in network-path form: it begins with two slashes, so resolving
it against the base parses an authority (a host, subject to host
validation) rather than only a path. -/
def authorityForm : List Char → Bool
  | '/' :: '/' :: _ => true
  | _ => false

/-! ## Manifest processing (`processManifest` in `cli.js`) -/

/-- JavaScript `Array.prototype.map` over a computation that may throw,
with exception semantics: the first failing element aborts the whole map. -/
def mapOpt (f : α → Option β) : List α → Option (List β)
  | [] => some []
  | a :: l =>
    match f a with
    | none => none
    | some b => (mapOpt f l).map (fun bs => b :: bs)

/-- The manifest lines considered by the derivation:
`data.split(/\n/).filter(item => item)` — split on newlines, keep the
non-empty strings (JavaScript truthiness on strings). -/
def manifestLines (data : List Char) : List (List Char) :=
  (data.splitOn '\n').filter (fun l => !l.isEmpty)

/-- Model of `const [urlComponent] = item.split(/\s+/)`: element 0 of a
JavaScript regexp split is the prefix before the first separator match, so
it is the longest whitespace-free prefix of the line — in particular the
EMPTY string when the line begins with whitespace. -/
def firstSplitToken (item : List Char) : List Char :=
  item.takeWhile (fun c => !jsSpace c)

/-- One line's contribution to the ignore list:
`new URL(urlComponent, "file://").pathname.slice(1)` — `none` when the URL
constructor throws. -/
def lineIgnorePath (l : List Char) : Option (List Char) :=
  (urlPathname (firstSplitToken l)).map (fun p => p.drop 1)

/-- The ignore entries derived from a manifest's content, in order;
`none` models `processManifest` rejecting (an unparsable first token). -/
def ignorePaths (data : List Char) : Option (List (List Char)) :=
  mapOpt lineIgnorePath (manifestLines data)

/-- The full string `processManifest` resolves with: the ignore entries
rendered as `--url-ignore=` flags joined by single spaces. -/
def processManifest (data : List Char) : Option String :=
  (ignorePaths data).map
    (fun ps => String.intercalate " "
      (ps.map (fun p => "--url-ignore=" ++ String.mk p)))

/-! ## Spec-side ignore derivation, for the refinement claim C4.

Modelled from the spec's words: "given a manifest file of
whitespace-delimited records (one per line, first token is a URL-like
string, blank lines skipped), parse each first token as a URL, extract its
path component, and add that path (without leading slash) to the ignore
set". -/

/-- The first whitespace-delimited token of a line in the natural reading:
the first maximal non-whitespace run (leading whitespace skipped first). -/
def firstWord (l : List Char) : List Char :=
  (l.dropWhile jsSpace).takeWhile (fun c => !jsSpace c)

/-- Remove a leading slash when there is one; leave other paths intact. -/
def dropLeadingSlash (p : List Char) : List Char :=
  match p with
  | '/' :: r => r
  | _ => p

/-- One line's ignore entry as the spec describes it: the first token's
URL path without its leading slash. -/
def specLineEntry (l : List Char) : Option (List Char) :=
  (urlPathname (firstWord l)).map dropLeadingSlash

/-- The ignore set as the spec describes it, derived line by line. -/
def specIgnorePaths (data : List Char) : Option (List (List Char)) :=
  mapOpt specLineEntry (manifestLines data)

/-- A line starts with a non-whitespace character. -/
def startsNonSpace (l : List Char) : Bool :=
  match l with
  | [] => false
  | c :: _ => !jsSpace c

/-- The parse result is a path beginning with a slash. -/
def slashPath? : Option (List Char) → Bool
  | some (c :: _) => c == '/'
  | _ => false

/-! ## Command-line options and `parseCommandLine` -/

/-- The parsed options object, one field per entry of `optionList` in
`cli.js`.  `Boolean` options without a command line occurrence are
`undefined` in JavaScript, which behaves as `false`; `String` options are
`Option String` so that JavaScript truthiness (`jsTruthy`) applies. -/
structure Options where
  noLinks : Bool
  checkLinksUsingGet : Bool
  noValidator : Bool
  help : Bool
  debug : Bool
  version : Bool
  status : Option String
  ghToken : Option String
  ghUser : Option String
  src : Option String
  manifest : Option String
deriving DecidableEq, Repr

/-- What `commandLineArgs(optionList)` did: returned an options object, or
threw.  `errUnknownOption` models an `UNKNOWN_OPTION` throw (an
unrecognized argument); `errOther` models any other throw of the argument
parsing step (for example `UNKNOWN_VALUE` from a second positional
argument).  The `catch` in `parseCommandLine` does not distinguish them. -/
inductive ParseInput where
  | errUnknownOption
  | errOther
  | parsed (o : Options)
deriving DecidableEq, Repr

/-- Outcome of `parseCommandLine`: an immediate `process.exit(code)`, or
the options object handed to `validate`. -/
inductive ParseResult where
  | exit (code : Nat)
  | options (o : Options)
deriving DecidableEq, Repr

/-- Model of `parseCommandLine` in `cli.js`: argument-parsing throws exit
127; `--version` and `--help` exit 0; a falsy `src` exits 1 with the usage
text; a truthy `gh-user` with a falsy `gh-token` exits 1; otherwise the
options are returned and `validate` runs. -/
def parseCommandLine : ParseInput → ParseResult
  | .errUnknownOption => .exit 127
  | .errOther => .exit 127
  | .parsed o =>
    if o.version then .exit 0
    else if o.help then .exit 0
    else if !jsTruthy o.src then .exit 1
    else if !jsTruthy o.ghToken && jsTruthy o.ghUser then .exit 1
    else .options o

/-- The module-level initialization `let DEBUG = process.env.DEBUG ||
false` collapsed to the truthiness of the environment variable. -/
def initialDEBUG (env : Option String) : Bool :=
  jsTruthy env

/-- The value of the global `DEBUG` after `parseCommandLine` ran: the line
`DEBUG = options.debug` overwrites the environment-derived value whenever
an options object was produced; when the argument parser threw, the
assignment is never reached. -/
def debugAfterParse (env : Option String) : ParseInput → Bool
  | .parsed o => o.debug
  | _ => initialDEBUG env

/-! ## The orchestrator `validate` -/

/-- Observable events of a run: the three external stages being launched,
the manifest being read and processed, the two terminal console messages,
and the `DEBUG`-gated version log at the top of `validate`. -/
inductive Event where
  | debugLog
  | runReSpec
  | runMarkup
  | readManifest
  | runLinks
  | msgAllPassed
  | msgFailure
deriving DecidableEq, Repr

/-- Oracle for the opaque external world: whether each external validator
process, when launched, exits successfully, and what reading the manifest
file yields (`none` models `fs.readFile` throwing). -/
structure StageResults where
  genOk : Bool
  markupOk : Bool
  linksOk : Bool
  manifestData : Option (List Char)
deriving DecidableEq, Repr

/-- Sequence steps of the `try` block: each step contributes its events
and, when it throws (`false`), the later steps never run. -/
def stageSeq : List (List Event × Bool) → List Event × Bool
  | [] => ([], true)
  | s :: rest =>
    if s.2 then (s.1 ++ (stageSeq rest).1, (stageSeq rest).2)
    else (s.1, false)

/-- `await doReSpecValidation(options.src, params)`: always launched
first. -/
def genStage (ext : StageResults) : List Event × Bool :=
  ([Event.runReSpec], ext.genOk)

/-- `if (!options["no-validator"]) await doMarkupValidation(htmlFile)`. -/
def markupStage (o : Options) (ext : StageResults) : List Event × Bool :=
  if !o.noValidator then ([Event.runMarkup], ext.markupOk) else ([], true)

/-- `if (!options["no-links"]) await checkLinks(htmlFile, ...)`, where the
`ignores` argument first runs `processManifest` when a manifest option is
truthy; a read failure or an unparsable first token throws before the link
checker is ever launched. -/
def linksStage (o : Options) (ext : StageResults) : List Event × Bool :=
  if !o.noLinks then
    if jsTruthy o.manifest then
      match ext.manifestData with
      | none => ([Event.readManifest], false)
      | some d =>
        if (ignorePaths d).isSome then
          ([Event.readManifest, Event.runLinks], ext.linksOk)
        else ([Event.readManifest], false)
    else ([Event.runLinks], ext.linksOk)
  else ([], true)

/-- The final `console.info("🎉 All checks passed!")` of the `try` block. -/
def successStage : List Event × Bool :=
  ([Event.msgAllPassed], true)

/-- The whole `try` block of `validate`: generation, optional markup
check, optional link check (with its manifest sub-procedure), success
message. -/
def tryBody (o : Options) (ext : StageResults) : List Event × Bool :=
  stageSeq [genStage ext, markupStage o ext, linksStage o ext, successStage]

/-- Model of `validate(options)`: the `DEBUG`-gated version log, the `try`
block, the `catch` printing the failure message and setting `exitCode =
1`, and the `finally` calling `process.exit(exitCode)`.  Returns the event
trace and the process exit code. -/
def validate (dbg : Bool) (o : Options) (ext : StageResults) :
    List Event × Nat :=
  let t0 := if dbg then [Event.debugLog] else []
  let r := tryBody o ext
  if r.2 then (t0 ++ r.1, 0) else (t0 ++ r.1 ++ [Event.msgFailure], 1)

/-- A whole process run: `parseCommandLine`, then — when options were
produced — `validate` under the `DEBUG` value current at that point. -/
def runCli (env : Option String) (p : ParseInput) (ext : StageResults) :
    List Event × Nat :=
  match parseCommandLine p with
  | .exit c => ([], c)
  | .options o => validate (debugAfterParse env p) o ext

/-- The link-check stage, including its ignore-list sub-procedure,
succeeds when launched: the manifest (when one is configured) can be read
and processed, and the link-checker process exits successfully. -/
def manifestStageOk (o : Options) (ext : StageResults) : Bool :=
  !jsTruthy o.manifest ||
    (match ext.manifestData with
     | none => false
     | some d => (ignorePaths d).isSome)

/-! ## Helper lemmas about the orchestrator -/

lemma stageSeq_mem {e : Event} :
    ∀ {l : List (List Event × Bool)}, e ∈ (stageSeq l).1 → ∃ s ∈ l, e ∈ s.1 := by
  intro l
  induction l with
  | nil => intro h; simp [stageSeq] at h
  | cons s rest ih =>
    intro h
    cases hs : s.2 with
    | false =>
      rw [stageSeq, hs] at h
      simp at h
      exact ⟨s, by simp, h⟩
    | true =>
      rw [stageSeq, hs] at h
      simp at h
      rcases h with h | h
      · exact ⟨s, by simp, h⟩
      · rcases ih h with ⟨t, ht, he⟩
        exact ⟨t, by simp [ht], he⟩

lemma tryBody_genFail {o : Options} {ext : StageResults}
    (h : ext.genOk = false) : tryBody o ext = ([Event.runReSpec], false) := by
  simp [tryBody, stageSeq, genStage, h]

lemma tryBody_markupFail {o : Options} {ext : StageResults}
    (hg : ext.genOk = true) (hnv : o.noValidator = false)
    (hm : ext.markupOk = false) :
    tryBody o ext = ([Event.runReSpec, Event.runMarkup], false) := by
  simp [tryBody, stageSeq, genStage, markupStage, hg, hnv, hm]

lemma mem_validate_iff {e : Event} {dbg : Bool} {o : Options}
    {ext : StageResults} (he1 : e ≠ Event.debugLog)
    (he2 : e ≠ Event.msgFailure) :
    e ∈ (validate dbg o ext).1 ↔ e ∈ (tryBody o ext).1 := by
  unfold validate
  cases h : (tryBody o ext).2 <;> cases dbg <;> simp [h, he1, he2]

lemma markupStage_events {o : Options} {ext : StageResults} {e : Event}
    (h : e ∈ (markupStage o ext).1) : e = Event.runMarkup := by
  unfold markupStage at h
  cases hnv : o.noValidator
  · simp [hnv] at h
    simp [h]
  · simp [hnv] at h

lemma linksStage_events {o : Options} {ext : StageResults} {e : Event}
    (h : e ∈ (linksStage o ext).1) :
    e = Event.readManifest ∨ e = Event.runLinks := by
  unfold linksStage at h
  cases hnl : o.noLinks
  · simp [hnl] at h
    cases hman : jsTruthy o.manifest
    · simp [hman] at h; simp [h]
    · simp [hman] at h
      cases hd : ext.manifestData with
      | none => simp [hd] at h; simp [h]
      | some d =>
        simp [hd] at h
        cases hi : (ignorePaths d).isSome <;> simp [hi] at h <;> tauto
  · simp [hnl] at h

lemma tryBody_events {o : Options} {ext : StageResults} {e : Event}
    (h : e ∈ (tryBody o ext).1) :
    e = Event.runReSpec ∨ e ∈ (markupStage o ext).1 ∨
      e ∈ (linksStage o ext).1 ∨ e = Event.msgAllPassed := by
  rcases stageSeq_mem h with ⟨s, hs, he⟩
  simp [genStage, successStage] at hs
  rcases hs with hs | hs | hs | hs <;> subst hs <;> simp_all [genStage, successStage]

lemma tryBody_ok_shape {o : Options} {ext : StageResults}
    (hg : ext.genOk = true)
    (hmk : o.noValidator = true ∨ ext.markupOk = true)
    (hlk : o.noLinks = true ∨ (manifestStageOk o ext = true ∧ ext.linksOk = true)) :
    (tryBody o ext).2 = true ∧
      (tryBody o ext).1 =
        [Event.runReSpec] ++ (markupStage o ext).1 ++ (linksStage o ext).1 ++
          [Event.msgAllPassed] := by
  have hm2 : (markupStage o ext).2 = true := by
    unfold markupStage
    rcases hmk with h | h
    · simp [h]
    · cases hnv : o.noValidator <;> simp [hnv, h]
  have hl2 : (linksStage o ext).2 = true := by
    unfold linksStage
    rcases hlk with h | h
    · simp [h]
    · rcases h with ⟨hman, hl⟩
      unfold manifestStageOk at hman
      cases hnl : o.noLinks
      · simp
        cases hmt : jsTruthy o.manifest
        · simp [hmt, hl]
        · simp [hmt] at hman
          cases hd : ext.manifestData with
          | none => rw [hd] at hman; simp at hman
          | some d =>
            rw [hd] at hman
            simp at hman
            simp [hd, hman, hl]
      · simp [hnl]
  simp [tryBody, stageSeq, genStage, successStage, hg, hm2, hl2]

/-! ## Sample inputs used by the witnesses -/

/-- A plain invocation: `respec-validator index.html`, no skips. -/
def oPlain : Options :=
  ⟨false, false, false, false, false, false, none, none, none,
    some "index.html", none⟩

/-- An invocation skipping both the markup check and the link check. -/
def oSkipBoth : Options :=
  ⟨true, false, true, false, false, false, none, none, none,
    some "index.html", none⟩

/-- All external processes succeed; no manifest is ever read. -/
def extAllOk : StageResults := ⟨true, true, true, none⟩

/-- The document-generation process fails. -/
def extGenFail : StageResults := ⟨false, true, true, none⟩

/-! ## Claims C1, C2, C3 -/

/-- C1: for every invocation in which all three external stages (document
generation/lint, markup check, link check — the latter including its
manifest sub-procedure) exit successfully, `validate` terminates the
process with exit code 0 and prints the final success message
`🎉 All checks passed!` exactly once. -/
theorem validate_success_exit_zero_message_once (dbg : Bool) (o : Options)
    (ext : StageResults) (hg : ext.genOk = true) (hm : ext.markupOk = true)
    (hl : ext.linksOk = true) (hman : manifestStageOk o ext = true) :
    (validate dbg o ext).2 = 0 ∧
      (validate dbg o ext).1.count Event.msgAllPassed = 1 := by
  obtain ⟨h2, h1⟩ := tryBody_ok_shape hg (Or.inr hm) (Or.inr ⟨hman, hl⟩)
  have cm : (markupStage o ext).1.count Event.msgAllPassed = 0 := by
    rw [List.count_eq_zero]
    intro hc
    have := markupStage_events hc
    simp at this
  have cl : (linksStage o ext).1.count Event.msgAllPassed = 0 := by
    rw [List.count_eq_zero]
    intro hc
    rcases linksStage_events hc with h | h <;> simp at h
  constructor
  · simp [validate, h2]
  · simp [validate, h2, h1, List.count_append, cm, cl]
    cases dbg <;> simp

theorem validate_success_exit_zero_message_once_witness :
    (validate false oPlain extAllOk).2 = 0 ∧
      (validate false oPlain extAllOk).1.count Event.msgAllPassed = 1 :=
  validate_success_exit_zero_message_once false oPlain extAllOk rfl rfl rfl
    (by decide)

/-- C2: for every invocation in which the document-generation stage fails,
neither the markup-check stage nor the link-check stage is ever launched,
and the process exits with code 1. -/
theorem gen_failure_aborts_all (dbg : Bool) (o : Options)
    (ext : StageResults) (h : ext.genOk = false) :
    Event.runMarkup ∉ (validate dbg o ext).1 ∧
      Event.runLinks ∉ (validate dbg o ext).1 ∧
      (validate dbg o ext).2 = 1 := by
  have ht := @tryBody_genFail o ext h
  refine ⟨?_, ?_, ?_⟩ <;> cases dbg <;> simp [validate, ht]

theorem gen_failure_aborts_all_witness :
    Event.runMarkup ∉ (validate false oPlain extGenFail).1 ∧
      Event.runLinks ∉ (validate false oPlain extGenFail).1 ∧
      (validate false oPlain extGenFail).2 = 1 :=
  gen_failure_aborts_all false oPlain extGenFail rfl

/-- C3: with the skip-markup flag (`--no-validator`) the markup check is
never launched; with the skip-link flag (`--no-links`) the link check is
never launched; and when a stage is launched, every preceding stage has
succeeded (markup requires generation success; links require generation
success and markup success unless markup was skipped). -/
theorem skip_flags_and_stage_ordering (dbg : Bool) (o : Options)
    (ext : StageResults) :
    (o.noValidator = true → Event.runMarkup ∉ (validate dbg o ext).1) ∧
      (o.noLinks = true → Event.runLinks ∉ (validate dbg o ext).1) ∧
      (Event.runMarkup ∈ (validate dbg o ext).1 → ext.genOk = true) ∧
      (Event.runLinks ∈ (validate dbg o ext).1 →
        ext.genOk = true ∧ (o.noValidator = true ∨ ext.markupOk = true)) := by
  refine ⟨?_, ?_, ?_, ?_⟩
  · intro hnv hmem
    rw [mem_validate_iff (by decide) (by decide)] at hmem
    rcases tryBody_events hmem with h | h | h | h
    · simp at h
    · simp [markupStage, hnv] at h
    · rcases linksStage_events h with h | h <;> simp at h
    · simp at h
  · intro hnl hmem
    rw [mem_validate_iff (by decide) (by decide)] at hmem
    rcases tryBody_events hmem with h | h | h | h
    · simp at h
    · have := markupStage_events h
      simp at this
    · simp [linksStage, hnl] at h
    · simp at h
  · intro hmem
    by_contra hg
    have hg' : ext.genOk = false := by simpa using hg
    rw [mem_validate_iff (by decide) (by decide), tryBody_genFail hg'] at hmem
    simp at hmem
  · intro hmem
    rw [mem_validate_iff (by decide) (by decide)] at hmem
    have hg : ext.genOk = true := by
      by_contra hg
      have hg' : ext.genOk = false := by simpa using hg
      rw [tryBody_genFail hg'] at hmem
      simp at hmem
    refine ⟨hg, ?_⟩
    cases hnv : o.noValidator with
    | false =>
      cases hmk : ext.markupOk with
      | false =>
        rw [tryBody_markupFail hg hnv hmk] at hmem
        simp at hmem
      | true => exact Or.inr rfl
    | true => exact Or.inl rfl

theorem skip_flags_and_stage_ordering_witness :
    Event.runMarkup ∉ (validate false oSkipBoth extAllOk).1 ∧
      Event.runLinks ∉ (validate false oSkipBoth extAllOk).1 :=
  ⟨(skip_flags_and_stage_ordering false oSkipBoth extAllOk).1 rfl,
    (skip_flags_and_stage_ordering false oSkipBoth extAllOk).2.1 rfl⟩

/-! ## Claims C5, C6, C7, C8 -/

/-- No positional document argument: `src` stays `undefined`. -/
def oNoSrc : Options :=
  ⟨false, false, false, false, false, false, none, none, none, none, none⟩

/-- A `--gh-user` flag without `--gh-token`, together with `--help`. -/
def oHelpUser : Options :=
  ⟨false, false, false, true, false, false, none, none, some "u", none, none⟩

/-- A `--gh-user` flag without `--gh-token` on an otherwise plain
invocation. -/
def oUserNoToken : Options :=
  ⟨false, false, false, false, false, false, none, none, some "u",
    some "index.html", none⟩

/-- C5: when the positional target-document argument is omitted (and no
help or version output is requested), the current code does NOT fall back
to a default filename: `parseCommandLine` prints the usage text and exits
with code 1, launching no stage.  This contradicts the repository's README
(`--src` — "Optional, a ReSpec src file (default to index.html)") and the
spec; in the related earlier revision the option still carried
`defaultValue: "index.html"`. -/
theorem missing_src_rejected (env : Option String) (o : Options)
    (ext : StageResults) (hs : jsTruthy o.src = false)
    (hv : o.version = false) (hh : o.help = false) :
    runCli env (.parsed o) ext = ([], 1) := by
  simp [runCli, parseCommandLine, hv, hh, hs]

theorem missing_src_rejected_witness :
    runCli none (ParseInput.parsed oNoSrc) extAllOk = ([], 1) :=
  missing_src_rejected none oNoSrc extAllOk rfl rfl rfl

/-- C6 counterexample: an invocation that supplies `--gh-user` without
`--gh-token` but also `--help` exits with code 0, not with a non-zero
configuration error — the help check at the top of `parseCommandLine` runs
before the token check. -/
theorem ghUser_without_token_help_exit_zero :
    jsTruthy oHelpUser.ghUser = true ∧ jsTruthy oHelpUser.ghToken = false ∧
      (runCli none (ParseInput.parsed oHelpUser) extAllOk).2 = 0 := by
  decide

/-- C6 amended: for every invocation that supplies `--gh-user` (truthy)
without `--gh-token` (falsy) and requests neither help nor version output,
the process exits with code 1 before any of the three external stages is
launched (the trace is empty). -/
theorem ghUser_without_token_rejected (env : Option String) (o : Options)
    (ext : StageResults) (hv : o.version = false) (hh : o.help = false)
    (hu : jsTruthy o.ghUser = true) (ht : jsTruthy o.ghToken = false) :
    runCli env (.parsed o) ext = ([], 1) := by
  cases hs : jsTruthy o.src <;>
    simp [runCli, parseCommandLine, hv, hh, hu, ht, hs]

theorem ghUser_without_token_rejected_witness :
    runCli none (ParseInput.parsed oUserNoToken) extAllOk = ([], 1) :=
  ghUser_without_token_rejected none oUserNoToken extAllOk rfl rfl rfl rfl

/-- C7 counterexample: an argument-parsing error that is not an
unrecognized option (for example `UNKNOWN_VALUE` from a second positional
argument) exits with code 127, not with code 1 as the claim's
"1 on any argument-parsing error" requires — the `catch` around
`commandLineArgs` exits 127 for every parser throw. -/
theorem parse_error_exit_127_not_1 :
    (runCli none ParseInput.errOther extAllOk).2 = 127 ∧
      (runCli none ParseInput.errOther extAllOk).2 ≠ 1 := by
  decide

/-- C7 amended: exit code 0 on full success; exit code 1 on any
validation failure and on malformed invocations (missing document
argument, or `--gh-user` without `--gh-token`); every argument-parsing
error — unrecognized arguments and all other parser throws alike — exits
with the distinct high code 127. -/
theorem exit_code_policy (env : Option String) (o : Options)
    (ext : StageResults) :
    (runCli env ParseInput.errUnknownOption ext).2 = 127 ∧
      (runCli env ParseInput.errOther ext).2 = 127 ∧
      (o.version = false → o.help = false → jsTruthy o.src = false →
        (runCli env (.parsed o) ext).2 = 1) ∧
      (o.version = false → o.help = false → jsTruthy o.ghToken = false →
        jsTruthy o.ghUser = true → (runCli env (.parsed o) ext).2 = 1) ∧
      (o.version = false → o.help = false → jsTruthy o.src = true →
        (jsTruthy o.ghToken || !jsTruthy o.ghUser) = true →
        ((tryBody o ext).2 = false → (runCli env (.parsed o) ext).2 = 1) ∧
          ((tryBody o ext).2 = true → (runCli env (.parsed o) ext).2 = 0)) := by
  refine ⟨rfl, rfl, ?_, ?_, ?_⟩
  · intro hv hh hs
    simp [runCli, parseCommandLine, hv, hh, hs]
  · intro hv hh ht hu
    cases hs : jsTruthy o.src <;>
      simp [runCli, parseCommandLine, hv, hh, ht, hu, hs]
  · intro hv hh hs hcombo
    have hpc : parseCommandLine (.parsed o) = .options o := by
      cases ht : jsTruthy o.ghToken <;> cases hu : jsTruthy o.ghUser <;>
        simp_all [parseCommandLine, hv, hh, hs]
    constructor <;> intro htb <;> simp [runCli, hpc, validate, htb]

theorem exit_code_policy_witness :
    (runCli none (ParseInput.parsed oPlain) extAllOk).2 = 0 :=
  ((exit_code_policy none oPlain extAllOk).2.2.2.2 rfl rfl rfl rfl).2
    (by decide)

lemma debugLog_not_mem_validate_false (o : Options) (ext : StageResults) :
    Event.debugLog ∉ (validate false o ext).1 := by
  intro hmem
  unfold validate at hmem
  cases h : (tryBody o ext).2 <;> simp [h] at hmem <;>
    rcases tryBody_events hmem with hc | hc | hc | hc <;>
      first
        | simp at hc
        | exact absurd (markupStage_events hc) (by decide)
        | (rcases linksStage_events hc with hc | hc <;> simp at hc)

/-- C8 counterexample: no invocation exists in which the `--debug` flag is
absent but a truthy `DEBUG` environment variable makes the validation run
emit debug diagnostics — `parseCommandLine` unconditionally overwrites the
global `DEBUG` with `options.debug` before `validate` runs. -/
theorem env_debug_never_enables_validation_debug :
    ¬ ∃ (env : Option String) (o : Options) (ext : StageResults),
        o.debug = false ∧ jsTruthy env = true ∧
          Event.debugLog ∈ (runCli env (.parsed o) ext).1 := by
  rintro ⟨env, o, ext, hdbg, henv, hmem⟩
  unfold runCli at hmem
  cases hpc : parseCommandLine (.parsed o) with
  | exit c =>
    rw [hpc] at hmem
    simp at hmem
  | options o' =>
    rw [hpc] at hmem
    have hd : debugAfterParse env (.parsed o) = false := hdbg
    rw [hd] at hmem
    exact debugLog_not_mem_validate_false o' ext hmem

/-- C8 amended: the environment variable `DEBUG` only initializes the
global debug flag; `parseCommandLine` overwrites it with the value of the
`--debug` option before `validate` runs, so the environment toggle never
affects a run — two runs differing only in the environment toggle are
identical, and the debug flag in force during validation equals the
`--debug` option. -/
theorem env_debug_toggle_overwritten (env env' : Option String)
    (p : ParseInput) (ext : StageResults) (o : Options) :
    runCli env p ext = runCli env' p ext ∧
      debugAfterParse env (.parsed o) = o.debug := by
  refine ⟨?_, rfl⟩
  cases p with
  | errUnknownOption => rfl
  | errOther => rfl
  | parsed o₁ =>
    cases hpc : parseCommandLine (.parsed o₁) <;>
      simp [runCli, hpc, debugAfterParse]

/-! ## Helper lemmas about the manifest derivation -/

lemma not_mem_of_contains_eq_false {l : List Char} {c : Char}
    (h : l.contains c = false) : c ∉ l := by
  simpa [List.contains] using h

lemma mapOpt_isSome {f : α → Option β} :
    ∀ {l : List α}, (∀ a ∈ l, (f a).isSome = true) →
      (mapOpt f l).isSome = true := by
  intro l
  induction l with
  | nil => intro _; rfl
  | cons a t ih =>
    intro h
    have ha := h a (by simp)
    unfold mapOpt
    cases hfa : f a with
    | none => rw [hfa] at ha; simp at ha
    | some b =>
      have ht := ih (fun x hx => h x (by simp [hx]))
      cases hmt : mapOpt f t with
      | none => rw [hmt] at ht; simp at ht
      | some bs => simp

lemma mapOpt_congr {f g : α → Option β} :
    ∀ {l : List α}, (∀ a ∈ l, f a = g a) → mapOpt f l = mapOpt g l := by
  intro l
  induction l with
  | nil => intro _; rfl
  | cons a t ih =>
    intro h
    have ha := h a (by simp)
    have ht := ih (fun x hx => h x (by simp [hx]))
    unfold mapOpt
    rw [ha, ht]

lemma schemeSplit_eq_none {t : List Char} (h : ':' ∉ t) :
    schemeSplit t = none := by
  cases t with
  | nil => rfl
  | cons c cs =>
    unfold schemeSplit
    by_cases hc : c.isAlpha
    · simp only [hc, if_true]
      split
      · rename_i pre r heq
        rw [List.span_eq_take_drop] at heq
        have h2 : (c :: cs).dropWhile schemeChar = ':' :: r := congrArg Prod.snd heq
        have : ':' ∈ (c :: cs).dropWhile schemeChar := by rw [h2]; simp
        exact absurd (List.dropWhile_subset _ this) h
      · rfl
    · simp [hc]

lemma urlPathname_isSome_of_pathlike {t : List Char} (h1 : ':' ∉ t)
    (h2 : authorityForm t = false) : (urlPathname t).isSome = true := by
  unfold urlPathname
  rw [schemeSplit_eq_none h1]
  split
  · rename_i scheme rest heq
    simp at heq
  · split
    · rename_i r
      simp [authorityForm] at h2
    · simp
    · simp

/-! ## Claims C4, C9, C10 -/

/-- C4 counterexample: on the single-line manifest `" https://x/y"` (one
leading space) the code's derivation and the spec-described derivation
disagree.  `item.split(/\s+/)[0]` is the EMPTY string for a line starting
with whitespace, so the code parses `""` against `file://` and produces the
entry `""`, while the spec's "first whitespace-delimited token" is
`https://x/y`, whose path without the leading slash is `"y"`. -/
theorem ignore_derivation_diverges_from_spec :
    ignorePaths " https://x/y".data ≠ specIgnorePaths " https://x/y".data := by
  decide

/-- C4 amended: for every manifest in which each (non-empty) line begins
with a non-whitespace character and each line's first token parses to a
path beginning with a slash, the derivation skips empty lines, takes each
remaining line's first whitespace-delimited token, parses it as a URL
against the file base, and adds that path without its leading slash; the
resulting list is exactly those entries and the derivation succeeds.  (In
general the code instead takes the possibly-empty prefix before the first
whitespace and removes the path's first character unconditionally.) -/
theorem ignore_derivation_matches_spec (data : List Char)
    (h1 : ∀ l ∈ manifestLines data, startsNonSpace l = true)
    (h2 : ∀ l ∈ manifestLines data,
      slashPath? (urlPathname (firstSplitToken l)) = true) :
    ignorePaths data = specIgnorePaths data ∧
      (ignorePaths data).isSome = true := by
  have hline : ∀ l ∈ manifestLines data,
      lineIgnorePath l = specLineEntry l ∧ (lineIgnorePath l).isSome = true := by
    intro l hl
    have hs := h1 l hl
    have hp := h2 l hl
    have htok : firstWord l = firstSplitToken l := by
      unfold firstWord firstSplitToken
      cases l with
      | nil => simp [startsNonSpace] at hs
      | cons c t =>
        unfold startsNonSpace at hs
        simp at hs
        rw [List.dropWhile_cons]
        simp [hs]
    cases hu : urlPathname (firstSplitToken l) with
    | none => simp [slashPath?, hu] at hp
    | some p =>
      cases p with
      | nil => simp [slashPath?, hu] at hp
      | cons c r =>
        simp [slashPath?, hu] at hp
        subst hp
        constructor
        · unfold lineIgnorePath specLineEntry
          rw [htok, hu]
          simp [dropLeadingSlash]
        · unfold lineIgnorePath
          rw [hu]
          simp
  constructor
  · unfold ignorePaths specIgnorePaths
    exact mapOpt_congr (fun l hl => (hline l hl).1)
  · exact mapOpt_isSome (fun l hl => (hline l hl).2)

theorem ignore_derivation_matches_spec_witness :
    ignorePaths "https://x/a\n\nb/c d".data =
        specIgnorePaths "https://x/a\n\nb/c d".data ∧
      (ignorePaths "https://x/a\n\nb/c d".data).isSome = true :=
  ignore_derivation_matches_spec "https://x/a\n\nb/c d".data (by decide)
    (by decide)

/-- C9: the ignore-list derivation is a deterministic function of the
manifest's content — parsing the same content twice (two reads of the same
file) yields the same exclusion set. -/
theorem ignore_derivation_deterministic (d₁ d₂ : List Char) (h : d₁ = d₂) :
    ignorePaths d₁ = ignorePaths d₂ := by
  rw [h]

theorem ignore_derivation_deterministic_witness :
    "a b\nc".data = "a b\nc".data ∧
      ignorePaths "a b\nc".data = ignorePaths "a b\nc".data :=
  ⟨rfl, ignore_derivation_deterministic _ _ rfl⟩

/-- C10 counterexample: the single-line manifest `//h:80/x` refutes the
claim that any first token which is a valid relative URL reference yields
an ignore entry.  `//h:80/x` is a valid network-path relative reference
(scheme-relative-URL string: host `h`, digit port `80`, path `/x`), yet
resolving it against the `file://` base fails — file URLs admit no port,
the colon is a forbidden domain code point, so `new URL("//h:80/x",
"file://")` throws — and the derivation rejects the whole manifest instead
of producing an entry: the run aborts on that line. -/
theorem valid_network_reference_aborts :
    urlPathname (firstSplitToken "//h:80/x".data) = none ∧
      ignorePaths "//h:80/x".data = none := by
  decide

/-- C10 amended: the derivation is total over scheme-less, authority-less
first tokens — a token containing no colon (so it cannot be read as a
scheme-prefixed absolute URL or carry a port) and no backslash (so the
special-URL backslash-as-slash rule cannot turn it into an authority) and
not beginning with `//` is a relative path reference; WHATWG path parsing
is failure-free, so such a token always resolves against the `file://`
base to a pathname.  This covers the claim's bare paths and arbitrary
non-URL-looking strings: every such line yields an ignore entry and the
run never aborts on it.  Tokens in authority form (`//…`) are excluded
because host validation can reject them even when they are valid relative
references. -/
theorem path_reference_tokens_never_abort (data : List Char)
    (h : ∀ l ∈ manifestLines data,
      (firstSplitToken l).contains ':' = false ∧
        (firstSplitToken l).contains '\\' = false ∧
        authorityForm (firstSplitToken l) = false) :
    (ignorePaths data).isSome = true := by
  apply mapOpt_isSome
  intro l hl
  have hnm : ':' ∉ firstSplitToken l :=
    not_mem_of_contains_eq_false (h l hl).1
  have hna : authorityForm (firstSplitToken l) = false := (h l hl).2.2
  unfold lineIgnorePath
  cases hu : urlPathname (firstSplitToken l) with
  | none =>
    have := urlPathname_isSome_of_pathlike hnm hna
    rw [hu] at this
    simp at this
  | some p => simp

theorem path_reference_tokens_never_abort_witness :
    (ignorePaths "foo bar\npath/x\n.well-known/a".data).isSome = true :=
  path_reference_tokens_never_abort "foo bar\npath/x\n.well-known/a".data
    (by decide)

end RespecValidator
